import Mathlib

/-! redis-tester: stage runner and instrumented RESP client

A shallow embedding of `stage_runner.go` and
`internal/instrumented_resp_client/instrumented_resp_client.go`.

* Go `int` values are `Int`; slices are lists with checked indexing, so an
  out-of-range index, a negative `make` length and a call of a nil function
  value show up as a `Fault` instead of a value.
* A Go `error` is `Option GoError` (`none` is `nil`); a pointer is an `Option`
  of the pointee (`none` is `nil`).
* The types `Executable` and `customLogger` are declared outside these two
  files; they are type parameters here.
* Everything the runner does to the outside world (log calls, starting a run
  function) is recorded, in order, in a list of `Event`s. What a run function
  does on its own (network traffic, its own log lines) is not part of it: a run
  function is known to the runner only through what the `select` observes.
* The random permutation drawn in `shuffleStages` and the race between a run
  function and the timer are inputs of the embedding.
-/

namespace RedisTester

/-! ## Go runtime pieces -/

/-- Ways in which the embedded code can stop without producing a value. -/
inductive Fault where
  /-- Go panics on `make([]T, n)` with `n < 0`: "makeslice: len out of range". -/
  | makesliceLenOutOfRange
  /-- Go panics on `s[i]` with `i < 0` or `i >= len(s)`: "index out of range". -/
  | indexOutOfRange
  /-- Calling a function value that is `nil`. -/
  | nilFuncCall
  /-- The iteration bound handed to a loop model was too small. -/
  | outOfFuel
  deriving DecidableEq, Repr

/-- A non-nil Go `error`, identified by what `Error()` returns. -/
structure GoError where
  msg : String
  deriving DecidableEq, Repr

/-- Result of `fmt.Errorf` on a format string without verbs. -/
def Errorf (msg : String) : GoError := ⟨msg⟩

/-- Go `make([]T, n)`: `n` copies of the zero value, a fault for negative `n`. -/
def makeSlice {α : Type} (zero : α) (n : Int) : Except Fault (List α) :=
  if n < 0 then .error .makesliceLenOutOfRange
  else .ok (List.replicate n.toNat zero)

/-- Go `s[i]` read with the runtime bounds check. -/
def index {α : Type} (s : List α) (i : Int) : Except Fault α :=
  if i < 0 then .error .indexOutOfRange
  else match s[i.toNat]? with
    | some v => .ok v
    | none => .error .indexOutOfRange

/-- Go `s[i] = v` with the runtime bounds check. -/
def assign {α : Type} (s : List α) (i : Int) (v : α) : Except Fault (List α) :=
  if i < 0 then .error .indexOutOfRange
  else if i.toNat < s.length then .ok (s.set i.toNat v)
  else .error .indexOutOfRange

/-- Go `len(s)`. -/
def len {α : Type} (s : List α) : Int := (s.length : Int)

/-! ## stage_runner.go: data -/

/-- What the `select` in `Run` observes for one stage: either the run function
delivered its `error` on the channel first, or the 5 second timer fired first. -/
inductive StageOutcome where
  | returned (err : Option GoError)
  | noResult
  deriving DecidableEq, Repr

/-- The Go struct `Stage`. `runFunc` is a function value (`none` is `nil`); its
answer is the outcome the runner observes for it. `logger` is a pointer. -/
structure Stage (Executable customLogger : Type) where
  name : String
  description : String
  runFunc : Option (Executable → Option customLogger → StageOutcome)
  logger : Option customLogger

/-- The zero value of `Stage`, as `make` fills a fresh slice with. -/
def Stage.zero {Executable customLogger : Type} : Stage Executable customLogger :=
  { name := "", description := "", runFunc := none, logger := none }

/-- The Go struct `StageRunner`. -/
structure StageRunner (Executable customLogger : Type) where
  stages : List (Stage Executable customLogger)
  isDebug : Bool

/-- The Go struct `StageRunnerResult`. -/
structure StageRunnerResult (customLogger : Type) where
  lastStageIndex : Int
  error : Option GoError
  logger : Option customLogger

/-- The method `IsSuccess`: `res.error == nil`. -/
def StageRunnerResult.IsSuccess {customLogger : Type}
    (res : StageRunnerResult customLogger) : Bool :=
  res.error.isNone

/-! ## stage_runner.go: Truncated -/

/-- The helper `min` on `int`. -/
def min (a b : Int) : Int :=
  if a < b then a else b

/-- The loop `for i := ...; i <= maxStageIndex; i++ { newStages[i] = r.stages[i] }`
started at `i`; the first argument bounds the number of iterations. -/
def Truncated.copy {Executable customLogger : Type}
    (stages : List (Stage Executable customLogger)) (maxStageIndex : Int) :
    Nat → Int → List (Stage Executable customLogger) →
      Except Fault (List (Stage Executable customLogger))
  | 0, i, newStages =>
    if i ≤ maxStageIndex then .error .outOfFuel else .ok newStages
  | fuel + 1, i, newStages =>
    if i ≤ maxStageIndex then
      match index stages i with
      | .error f => .error f
      | .ok v =>
        match assign newStages i v with
        | .error f => .error f
        | .ok newStages => Truncated.copy stages maxStageIndex fuel (i + 1) newStages
    else .ok newStages

/-- The method `Truncated`: a runner with the stages up to `stageIndex`. -/
def Truncated {Executable customLogger : Type}
    (r : StageRunner Executable customLogger) (stageIndex : Int) :
    Except Fault (StageRunner Executable customLogger) :=
  let maxStageIndex := min stageIndex (len r.stages - 1)
  match makeSlice Stage.zero (maxStageIndex + 1) with
  | .error f => .error f
  | .ok newStages =>
    match Truncated.copy r.stages maxStageIndex (maxStageIndex + 1).toNat 0 newStages with
    | .error f => .error f
    | .ok newStages => .ok { isDebug := r.isDebug, stages := newStages }

/-! ## stage_runner.go: Randomized -/

/-- The loop `for i, randIndex := range perm { ret[i] = stages[randIndex] }`,
at position `i` with the entries of `perm` still to visit. -/
def shuffleStages.fill {Executable customLogger : Type}
    (stages : List (Stage Executable customLogger)) :
    Nat → List Int → List (Stage Executable customLogger) →
      Except Fault (List (Stage Executable customLogger))
  | _, [], ret => .ok ret
  | i, randIndex :: rest, ret =>
    match index stages randIndex with
    | .error f => .error f
    | .ok v =>
      match assign ret (i : Int) v with
      | .error f => .error f
      | .ok ret => shuffleStages.fill stages (i + 1) rest ret

/-- The function `shuffleStages`. The argument `perm` is what `r.Perm(len(stages))` returned
for the time-seeded random source. -/
def shuffleStages {Executable customLogger : Type}
    (stages : List (Stage Executable customLogger)) (perm : List Int) :
    Except Fault (List (Stage Executable customLogger)) :=
  match makeSlice Stage.zero (len stages) with
  | .error f => .error f
  | .ok ret => shuffleStages.fill stages 0 perm ret

/-- The method `Randomized`, for the permutation `perm` drawn inside `shuffleStages`. -/
def Randomized {Executable customLogger : Type}
    (r : StageRunner Executable customLogger) (perm : List Int) :
    Except Fault (StageRunner Executable customLogger) :=
  match shuffleStages r.stages perm with
  | .error f => .error f
  | .ok stages => .ok { isDebug := r.isDebug, stages := stages }

/-- What `r.Perm(n)` may return: the numbers `0 .. n-1` in some order. -/
def IsPermOutput (n : Nat) (perm : List Int) : Prop :=
  List.Perm perm ((List.range n).map Int.ofNat)

instance (n : Nat) (perm : List Int) : Decidable (IsPermOutput n perm) :=
  inferInstanceAs (Decidable (List.Perm perm ((List.range n).map Int.ofNat)))

/-! ## stage_runner.go: Run -/

/-- The leveled methods of the logger that the two files call. -/
inductive Level where
  | info
  | debug
  | success
  | error
  deriving DecidableEq, Repr

/-- One observable step of the runner: a formatted message handed to a logger
at some level, or the start of the run function of the stage at an index. -/
inductive Event (customLogger : Type) where
  | log (logger : Option customLogger) (level : Level) (msg : String)
  | invoke (index : Nat)

/-- The second message of `reportTestError` when `isDebug` is false. -/
def testFailedHint : String :=
  "Test failed " ++
    "(try setting \x27debug: true\x27 in your codecrafters.yml to see more details)"

/-- The function `reportTestError`, appending to the events so far. `Errorf("%s", err)`
formats to `err.Error()`. -/
def reportTestError {customLogger : Type} (err : GoError) (isDebug : Bool)
    (logger : Option customLogger) (trace : List (Event customLogger)) :
    List (Event customLogger) :=
  let trace := trace ++ [Event.log logger Level.error err.msg]
  if isDebug then
    trace ++ [Event.log logger Level.error "Test failed"]
  else
    trace ++ [Event.log logger Level.error testFailedHint]

/-- The `select` of `Run`: the error delivered on the channel, or the error
made up when the timer fires first. -/
def selectErr : StageOutcome → Option GoError
  | .returned stageErr => stageErr
  | .noResult => some (Errorf "timed out, test exceeded 5 seconds")

/-- The `for index, stage := range r.stages` loop of `Run` at position `index`
with the stages still to visit, followed by the final `return`. -/
def Run.loop {Executable customLogger : Type}
    (r : StageRunner Executable customLogger) (executable : Executable) :
    Nat → List (Stage Executable customLogger) → List (Event customLogger) →
      Except Fault (StageRunnerResult customLogger × List (Event customLogger))
  | _, [], trace =>
    .ok ({ lastStageIndex := len r.stages - 1, error := none, logger := none }, trace)
  | index, stage :: rest, trace =>
    let logger := stage.logger
    let trace := trace ++ [Event.log logger Level.info ("Running test: " ++ stage.name)]
    match stage.runFunc with
    | none => .error .nilFuncCall
    | some runFunc =>
      let trace := trace ++ [Event.invoke index]
      match selectErr (runFunc executable logger) with
      | some err =>
        .ok ({ lastStageIndex := (index : Int), error := some err, logger := none },
          reportTestError err r.isDebug logger trace)
      | none =>
        Run.loop r executable (index + 1) rest
          (trace ++ [Event.log logger Level.success "Test passed."])

/-- The method `Run`: the result together with everything the runner did, in order. -/
def Run {Executable customLogger : Type}
    (r : StageRunner Executable customLogger) (executable : Executable) :
    Except Fault (StageRunnerResult customLogger × List (Event customLogger)) :=
  Run.loop r executable 0 r.stages []

/-- The indices whose run function was started, in the order of starting. -/
def invocations {customLogger : Type} : List (Event customLogger) → List Nat
  | [] => []
  | Event.invoke i :: rest => i :: invocations rest
  | Event.log _ _ _ :: rest => invocations rest

/-- The messages logged at error level, with their logger, in order. -/
def errorLog {customLogger : Type} :
    List (Event customLogger) → List (Option customLogger × String)
  | [] => []
  | Event.log lg Level.error m :: rest => (lg, m) :: errorLog rest
  | _ :: rest => errorLog rest

/-- The messages logged at success level, with their logger, in order. -/
def successLog {customLogger : Type} :
    List (Event customLogger) → List (Option customLogger × String)
  | [] => []
  | Event.log lg Level.success m :: rest => (lg, m) :: successLog rest
  | _ :: rest => successLog rest

/-- What the `select` observes when the runner starts this stage (`none` when
there is nothing to start because `runFunc` is nil). -/
def Stage.outcome {Executable customLogger : Type}
    (stage : Stage Executable customLogger) (executable : Executable) :
    Option StageOutcome :=
  match stage.runFunc with
  | none => none
  | some runFunc => some (runFunc executable stage.logger)

/-- What the `select` observes for the stage at index `j` of the runner. -/
def outcomeAt {Executable customLogger : Type}
    (r : StageRunner Executable customLogger) (executable : Executable) (j : Nat) :
    Option StageOutcome :=
  match r.stages[j]? with
  | none => none
  | some stage => stage.outcome executable

/-- The events of a passing stage at position `index`, for each of the stages
in turn: the announcement, the start of the run function, "Test passed.". -/
def passTrace {Executable customLogger : Type} :
    Nat → List (Stage Executable customLogger) → List (Event customLogger)
  | _, [] => []
  | index, stage :: rest =>
    [Event.log stage.logger Level.info ("Running test: " ++ stage.name),
      Event.invoke index,
      Event.log stage.logger Level.success "Test passed."] ++ passTrace (index + 1) rest

/-- The logger of the stage at index `j` (`none` also when there is no such stage). -/
def loggerAt {Executable customLogger : Type}
    (r : StageRunner Executable customLogger) (j : Nat) : Option customLogger :=
  match r.stages[j]? with
  | none => none
  | some stage => stage.logger

/-! ## instrumented_resp_client.go -/

/-- Go `strings.Join`. -/
def Join : List String → String → String
  | [], _ => ""
  | [a], _ => a
  | a :: b :: rest, sep => a ++ sep ++ Join (b :: rest) sep

/-- The local `logPrefix` of `NewInstrumentedRespClient`. -/
def logPrefix (clientIdentifier : String) : String :=
  if clientIdentifier ≠ "" then clientIdentifier ++ ": " else ""

/-- The four callbacks handed to `NewRespClientWithCallbacks`; each yields the
level and the formatted message it passes to `stageHarness.Logger`. -/
structure RespClientCallbacks (Bytes Value : Type) where
  OnSendCommand : String → List String → Level × String
  OnBytesSent : Bytes → Level × String
  OnBytesReceived : Bytes → Level × String
  OnValueRead : Value → Level × String

/-- The callback set built by `NewInstrumentedRespClient`. `quote` is the
rendering of `string(bytes)` under the verb `%q`, and `FormattedString` the
method of `resp_value.Value`; both live outside this file. -/
def NewInstrumentedRespClient.callbacks {Bytes Value : Type}
    (quote : Bytes → String) (FormattedString : Value → String)
    (clientIdentifier : String) : RespClientCallbacks Bytes Value :=
  let logPrefix := logPrefix clientIdentifier
  { OnSendCommand := fun command args =>
      if args.length > 0 then
        (Level.info, logPrefix ++ "$ redis-cli " ++ command ++ " " ++ Join args " ")
      else
        (Level.info, logPrefix ++ "$ redis-cli " ++ command)
    OnBytesSent := fun bytes =>
      (Level.debug, logPrefix ++ "Sent bytes: " ++ quote bytes)
    OnBytesReceived := fun bytes =>
      (Level.debug, logPrefix ++ "Received bytes: " ++ quote bytes)
    OnValueRead := fun value =>
      (Level.debug, logPrefix ++ "Received RESP value: " ++ FormattedString value) }

/-- A shell-like argument list: every argument preceded by one space. -/
def shellArgs : List String → String
  | [] => ""
  | a :: rest => " " ++ a ++ shellArgs rest

/-! ## Sample inputs -/

/-- A stage with the given name, logger and fixed observed outcome. -/
def sampleStage (name : String) (logger : Nat) (o : StageOutcome) : Stage Unit Nat :=
  { name := name, description := "", runFunc := some (fun _ _ => o), logger := some logger }

/-- Three stages that all pass. -/
def passingRunner : StageRunner Unit Nat :=
  { isDebug := false
    stages := [sampleStage "one" 1 (.returned none), sampleStage "two" 2 (.returned none),
      sampleStage "three" 3 (.returned none)] }

/-- Three stages; the second returns the error "boom". -/
def failingRunner : StageRunner Unit Nat :=
  { isDebug := false
    stages := [sampleStage "one" 1 (.returned none),
      sampleStage "two" 2 (.returned (some ⟨"boom"⟩)),
      sampleStage "three" 3 (.returned none)] }

/-- Three stages; the second delivers nothing before the timer fires. -/
def hangingRunner : StageRunner Unit Nat :=
  { isDebug := true
    stages := [sampleStage "one" 1 (.returned none), sampleStage "two" 2 .noResult,
      sampleStage "three" 3 (.returned none)] }

/-! ## Lemmas on slices -/

theorem index_ok {α : Type} (s : List α) (i : Nat) (h : i < s.length) :
    index s (i : Int) = .ok (s.get ⟨i, h⟩) := by
  unfold index
  have h0 : ¬ ((i : Int) < 0) := by omega
  simp [h0, List.getElem?_eq_getElem h]

theorem assign_next {α : Type} (done : List α) (z v : α) (c : Nat) :
    assign (done ++ List.replicate (c + 1) z) (done.length : Int) v
      = .ok (done ++ [v] ++ List.replicate c z) := by
  unfold assign
  have h0 : ¬ ((done.length : Int) < 0) := by omega
  simp [h0, List.replicate_succ]

/-! ## Truncated -/

theorem min_eq (a b : Int) : min a b = Min.min a b := by
  unfold min
  split <;> omega

theorem Truncated.copy_take {Executable customLogger : Type}
    (stages : List (Stage Executable customLogger)) (k : Nat) (hk : k ≤ stages.length) :
    ∀ (fuel i : Nat), fuel + i = k →
      Truncated.copy stages ((k : Int) - 1) fuel (i : Int)
          (stages.take i ++ List.replicate (k - i) Stage.zero)
        = .ok (stages.take k) := by
  intro fuel
  induction fuel with
  | zero =>
    intro i hi
    have hik : i = k := by omega
    subst hik
    have hc : ¬ ((i : Int) ≤ (i : Int) - 1) := by omega
    simp [Truncated.copy, hc]
  | succ fuel ih =>
    intro i hi
    have hlt : i < stages.length := by omega
    have hc : (i : Int) ≤ (k : Int) - 1 := by omega
    have hlen : (stages.take i).length = i := by
      rw [List.length_take]; omega
    have hrep : k - i = (k - (i + 1)) + 1 := by omega
    have hset := assign_next (stages.take i) Stage.zero (stages.get ⟨i, hlt⟩) (k - (i + 1))
    rw [hlen, ← hrep] at hset
    have hnext : stages.take i ++ [stages.get ⟨i, hlt⟩] = stages.take (i + 1) := by
      rw [List.take_succ, List.getElem?_eq_getElem hlt]
      rfl
    rw [hnext] at hset
    have hih := ih (i + 1) (by omega)
    rw [Truncated.copy, if_pos hc, index_ok stages i hlt]
    simp only [hset]
    rw [← hih]
    congr 1

/-- For `stageIndex >= -1` the method returns the stages up to the clamped index. -/
theorem Truncated_eq {Executable customLogger : Type}
    (r : StageRunner Executable customLogger) (stageIndex : Int) (h : -1 ≤ stageIndex) :
    Truncated r stageIndex
      = .ok { isDebug := r.isDebug,
              stages := r.stages.take (min stageIndex (len r.stages - 1) + 1).toNat } := by
  have hmin := min_eq stageIndex (len r.stages - 1)
  generalize hm : min stageIndex (len r.stages - 1) = m at hmin
  have hlen : len r.stages = (r.stages.length : Int) := rfl
  obtain ⟨k, hk⟩ : ∃ k : Nat, m + 1 = (k : Int) := ⟨(m + 1).toNat, by omega⟩
  have hkl : k ≤ r.stages.length := by omega
  have hm1 : m = (k : Int) - 1 := by omega
  have hcopy := Truncated.copy_take r.stages k hkl k 0 (by omega)
  simp only [List.take_zero, List.nil_append, Nat.sub_zero, Nat.cast_zero] at hcopy
  unfold Truncated
  simp only [hm, hk, Int.toNat_ofNat]
  have hmk : makeSlice (Stage.zero : Stage Executable customLogger) (k : Int)
      = .ok (List.replicate k Stage.zero) := by
    unfold makeSlice
    have : ¬ ((k : Int) < 0) := by omega
    simp [this]
  rw [hmk]
  simp only [hm1, hcopy]

/-- For `stageIndex < -1` the allocation of the new slice faults. -/
theorem Truncated_fault {Executable customLogger : Type}
    (r : StageRunner Executable customLogger) (stageIndex : Int) (h : stageIndex < -1) :
    Truncated r stageIndex = .error Fault.makesliceLenOutOfRange := by
  have hmin := min_eq stageIndex (len r.stages - 1)
  have hlen : len r.stages = (r.stages.length : Int) := rfl
  unfold Truncated makeSlice
  have : min stageIndex (len r.stages - 1) + 1 < 0 := by omega
  simp [this]

/-! ## Randomized -/

theorem index_getD {α : Type} (s : List α) (z : α) (j : Int) (h0 : 0 ≤ j)
    (h1 : j < (s.length : Int)) : index s j = .ok (s.getD j.toNat z) := by
  unfold index
  have hn : ¬ (j < 0) := by omega
  have hlt : j.toNat < s.length := by omega
  simp [hn, List.getElem?_eq_getElem hlt, List.getD_eq_getElem?_getD]

theorem shuffleStages.fill_map {Executable customLogger : Type}
    (stages : List (Stage Executable customLogger)) (c : Nat) :
    ∀ (rest : List Int) (done : List (Stage Executable customLogger)),
      (∀ j ∈ rest, 0 ≤ j ∧ j < (stages.length : Int)) →
      shuffleStages.fill stages done.length rest
          (done ++ List.replicate (rest.length + c) Stage.zero)
        = .ok (done ++ rest.map (fun j => stages.getD j.toNat Stage.zero)
            ++ List.replicate c Stage.zero) := by
  intro rest
  induction rest with
  | nil =>
    intro done _
    simp [shuffleStages.fill]
  | cons j rest ih =>
    intro done hmem
    have hj := hmem j (List.mem_cons_self j rest)
    have hrest : ∀ x ∈ rest, 0 ≤ x ∧ x < (stages.length : Int) :=
      fun x hx => hmem x (List.mem_cons_of_mem j hx)
    have hidx := index_getD stages Stage.zero j hj.1 hj.2
    have hset := assign_next done Stage.zero (stages.getD j.toNat Stage.zero) (rest.length + c)
    have hl : (j :: rest).length + c = (rest.length + c) + 1 := by
      simp only [List.length_cons]; omega
    have hih := ih (done ++ [stages.getD j.toNat Stage.zero]) hrest
    rw [List.length_append, List.length_singleton] at hih
    rw [shuffleStages.fill, hidx, hl]
    simp only [hset, hih]
    simp

theorem map_getD_range {α : Type} (s : List α) (z : α) :
    ((List.range s.length).map Int.ofNat).map (fun j => s.getD j.toNat z) = s := by
  apply List.ext_getElem
  · simp
  · intro i h1 h2
    simp [List.getD_eq_getElem?_getD, List.getElem?_eq_getElem h2]

theorem shuffleStages_eq {Executable customLogger : Type}
    (stages : List (Stage Executable customLogger)) (perm : List Int)
    (h : IsPermOutput stages.length perm) :
    shuffleStages stages perm
      = .ok (perm.map (fun j => stages.getD j.toNat Stage.zero)) := by
  have hlen : perm.length = stages.length := by
    have := h.length_eq
    simpa using this
  have hmem : ∀ j ∈ perm, 0 ≤ j ∧ j < (stages.length : Int) := by
    intro j hj
    have hj2 := (List.Perm.mem_iff h).mp hj
    rw [List.mem_map] at hj2
    obtain ⟨i, hi, rfl⟩ := hj2
    rw [List.mem_range] at hi
    constructor
    · exact Int.ofNat_nonneg i
    · exact Int.ofNat_lt.mpr hi
  have hfill := shuffleStages.fill_map stages 0 perm [] hmem
  simp only [List.length_nil, Nat.add_zero, List.nil_append, List.replicate_zero,
    List.append_nil] at hfill
  unfold shuffleStages makeSlice len
  have hn : ¬ ((stages.length : Int) < 0) := by omega
  simp only [hn, if_false, Int.toNat_ofNat]
  rw [← hlen]
  exact hfill

theorem shuffleStages_perm {Executable customLogger : Type}
    (stages : List (Stage Executable customLogger)) (perm : List Int)
    (h : IsPermOutput stages.length perm) :
    List.Perm (perm.map (fun j => stages.getD j.toNat Stage.zero)) stages := by
  have h1 := List.Perm.map (fun j : Int => stages.getD j.toNat Stage.zero) h
  rw [map_getD_range] at h1
  exact h1

/-! ## Run -/

theorem invocations_append {customLogger : Type} (a b : List (Event customLogger)) :
    invocations (a ++ b) = invocations a ++ invocations b := by
  induction a with
  | nil => rfl
  | cons x a ih => cases x <;> simp [invocations, ih]

theorem errorLog_append {customLogger : Type} (a b : List (Event customLogger)) :
    errorLog (a ++ b) = errorLog a ++ errorLog b := by
  induction a with
  | nil => rfl
  | cons x a ih =>
    cases x with
    | invoke i => simp [errorLog, ih]
    | log lg lvl m => cases lvl <;> simp [errorLog, ih]

theorem invocations_passTrace {Executable customLogger : Type}
    (stages : List (Stage Executable customLogger)) :
    ∀ index : Nat, invocations (passTrace index stages : List (Event customLogger))
      = List.range' index stages.length := by
  induction stages with
  | nil => intro index; rfl
  | cons s rest ih =>
    intro index
    simp [passTrace, invocations, ih, List.range'_succ]

theorem errorLog_passTrace {Executable customLogger : Type}
    (stages : List (Stage Executable customLogger)) :
    ∀ index : Nat, errorLog (passTrace index stages : List (Event customLogger)) = [] := by
  induction stages with
  | nil => intro index; rfl
  | cons s rest ih =>
    intro index
    simp [passTrace, errorLog, ih]

/-- The loop over stages that all pass runs to the final `return`. -/
theorem Run.loop_pass {Executable customLogger : Type}
    (r : StageRunner Executable customLogger) (executable : Executable)
    (stages : List (Stage Executable customLogger)) :
    (∀ s ∈ stages, s.outcome executable = some (.returned none)) →
    ∀ (index : Nat) (trace : List (Event customLogger)),
      Run.loop r executable index stages trace
        = .ok ({ lastStageIndex := len r.stages - 1, error := none, logger := none },
            trace ++ passTrace index stages) := by
  induction stages with
  | nil =>
    intro _ index trace
    simp [Run.loop, passTrace]
  | cons s rest ih =>
    intro hall index trace
    have hs := hall s (List.mem_cons_self s rest)
    have hrest : ∀ x ∈ rest, x.outcome executable = some (.returned none) :=
      fun x hx => hall x (List.mem_cons_of_mem s hx)
    unfold Stage.outcome at hs
    cases hf : s.runFunc with
    | none => rw [hf] at hs; cases hs
    | some f =>
      rw [hf] at hs
      have hfo : f executable s.logger = .returned none := Option.some.inj hs
      rw [Run.loop]
      simp only [hf, hfo, selectErr]
      rw [ih hrest]
      simp [passTrace]

/-- The loop over passing stages followed by a failing one stops there. -/
theorem Run.loop_fail {Executable customLogger : Type}
    (r : StageRunner Executable customLogger) (executable : Executable)
    (s : Stage Executable customLogger) (post : List (Stage Executable customLogger))
    (o : StageOutcome) (e : GoError)
    (hs : s.outcome executable = some o) (he : selectErr o = some e)
    (pre : List (Stage Executable customLogger)) :
    (∀ x ∈ pre, x.outcome executable = some (.returned none)) →
    ∀ (index : Nat) (trace : List (Event customLogger)),
      Run.loop r executable index (pre ++ s :: post) trace
        = .ok ({ lastStageIndex := ((index + pre.length : Nat) : Int), error := some e,
                 logger := none },
            reportTestError e r.isDebug s.logger
              (trace ++ passTrace index pre
                ++ [Event.log s.logger Level.info ("Running test: " ++ s.name),
                    Event.invoke (index + pre.length)])) := by
  induction pre with
  | nil =>
    intro _ index trace
    unfold Stage.outcome at hs
    cases hf : s.runFunc with
    | none => rw [hf] at hs; cases hs
    | some f =>
      rw [hf] at hs
      have hfo : f executable s.logger = o := Option.some.inj hs
      rw [List.nil_append, Run.loop]
      simp only [hf, hfo, he]
      simp [passTrace]
  | cons x rest ih =>
    intro hall index trace
    have hx := hall x (List.mem_cons_self x rest)
    have hrest : ∀ y ∈ rest, y.outcome executable = some (.returned none) :=
      fun y hy => hall y (List.mem_cons_of_mem x hy)
    unfold Stage.outcome at hx
    cases hf : x.runFunc with
    | none => rw [hf] at hx; cases hx
    | some f =>
      rw [hf] at hx
      have hfo : f executable x.logger = .returned none := Option.some.inj hx
      rw [List.cons_append, Run.loop]
      simp only [hf, hfo, selectErr]
      rw [ih hrest]
      have hidx : index + 1 + rest.length = index + (x :: rest).length := by
        simp only [List.length_cons]; omega
      rw [hidx]
      simp [passTrace]

theorem Run_pass {Executable customLogger : Type}
    (r : StageRunner Executable customLogger) (executable : Executable)
    (hall : ∀ j, j < r.stages.length → outcomeAt r executable j = some (.returned none)) :
    Run r executable
      = .ok ({ lastStageIndex := len r.stages - 1, error := none, logger := none },
          passTrace 0 r.stages) := by
  have hmem : ∀ s ∈ r.stages, s.outcome executable = some (.returned none) := by
    intro s hs
    obtain ⟨j, hj, rfl⟩ := List.getElem_of_mem hs
    have h := hall j hj
    unfold outcomeAt at h
    rw [List.getElem?_eq_getElem hj] at h
    exact h
  unfold Run
  rw [Run.loop_pass r executable r.stages hmem 0 []]
  simp

theorem Run_fail {Executable customLogger : Type}
    (r : StageRunner Executable customLogger) (executable : Executable)
    (i : Nat) (o : StageOutcome) (e : GoError)
    (hpre : ∀ j, j < i → outcomeAt r executable j = some (.returned none))
    (hi : outcomeAt r executable i = some o) (he : selectErr o = some e) :
    ∃ s, r.stages[i]? = some s ∧
      Run r executable
        = .ok ({ lastStageIndex := (i : Int), error := some e, logger := none },
            reportTestError e r.isDebug s.logger
              (passTrace 0 (r.stages.take i)
                ++ [Event.log s.logger Level.info ("Running test: " ++ s.name),
                    Event.invoke i])) := by
  unfold outcomeAt at hi
  cases hs : r.stages[i]? with
  | none => rw [hs] at hi; cases hi
  | some s =>
    rw [hs] at hi
    obtain ⟨hlt, hget⟩ := List.getElem?_eq_some.mp hs
    refine ⟨s, rfl, ?_⟩
    have hsplit : r.stages = r.stages.take i ++ s :: r.stages.drop (i + 1) := by
      rw [← hget, List.getElem_cons_drop r.stages i hlt, List.take_append_drop]
    have hlen : (r.stages.take i).length = i := by
      rw [List.length_take]; omega
    have hmem : ∀ x ∈ r.stages.take i, x.outcome executable = some (.returned none) := by
      intro x hx
      obtain ⟨j, hj, rfl⟩ := List.getElem_of_mem hx
      have hji : j < i := by omega
      have h := hpre j hji
      unfold outcomeAt at h
      rw [List.getElem_take]
      rw [List.getElem?_eq_getElem (by omega)] at h
      exact h
    have hloop := Run.loop_fail r executable s (r.stages.drop (i + 1)) o e hi he
      (r.stages.take i) hmem 0 []
    rw [← hsplit, hlen] at hloop
    unfold Run
    rw [hloop]
    simp

theorem invocations_reportTestError {customLogger : Type} (e : GoError) (d : Bool)
    (lg : Option customLogger) (t : List (Event customLogger)) :
    invocations (reportTestError e d lg t) = invocations t := by
  unfold reportTestError
  cases d <;> simp [invocations_append, invocations]

theorem reportTestError_eq {customLogger : Type} (e : GoError) (d : Bool)
    (lg : Option customLogger) (t : List (Event customLogger)) :
    reportTestError e d lg t
      = t ++ [Event.log lg Level.error e.msg,
          Event.log lg Level.error (if d then "Test failed" else testFailedHint)] := by
  unfold reportTestError
  cases d <;> simp

theorem invocations_failTrace {Executable customLogger : Type}
    (stages : List (Stage Executable customLogger)) (i : Nat) (hi : i < stages.length)
    (e : GoError) (d : Bool) (lg : Option customLogger) (m : String) :
    invocations (reportTestError e d lg
        (passTrace 0 (stages.take i) ++ [Event.log lg Level.info m, Event.invoke i]))
      = List.range (i + 1) := by
  have hlen : (stages.take i).length = i := by
    rw [List.length_take]; omega
  rw [invocations_reportTestError, invocations_append, invocations_passTrace, hlen,
    List.range_succ, List.range_eq_range']
  rfl

theorem errorLog_failTrace {Executable customLogger : Type}
    (pre : List (Stage Executable customLogger)) (i : Nat)
    (e : GoError) (d : Bool) (lg : Option customLogger) (m : String) :
    errorLog (reportTestError e d lg
        (passTrace 0 pre ++ [Event.log lg Level.info m, Event.invoke i]))
      = [(lg, e.msg), (lg, if d then "Test failed" else testFailedHint)] := by
  rw [reportTestError_eq, errorLog_append, errorLog_append, errorLog_passTrace]
  rfl

theorem loggerAt_eq {Executable customLogger : Type}
    (r : StageRunner Executable customLogger) (i : Nat) (s : Stage Executable customLogger)
    (hs : r.stages[i]? = some s) : loggerAt r i = s.logger := by
  unfold loggerAt
  rw [hs]

theorem shellArgs_Join (a : String) (rest : List String) :
    " " ++ Join (a :: rest) " " = shellArgs (a :: rest) := by
  induction rest generalizing a with
  | nil => simp [Join, shellArgs]
  | cons b rest ih =>
    rw [Join, shellArgs, ← ih b]
    simp only [String.append_assoc]

/-! ## The claims -/

/-- C1: if the stages before index `i` all return nil in time and stage `i`
returns the error `e` in time, `Run` returns a result that is not a success,
has `lastStageIndex = i` and carries exactly `e`; the run functions started are
those of the indices `0, ..., i`, once each and in this order, so none of a
later stage is started. -/
theorem Run_stops_at_first_error {Executable customLogger : Type}
    (r : StageRunner Executable customLogger) (executable : Executable)
    (i : Nat) (e : GoError)
    (hpre : ∀ j, j < i → outcomeAt r executable j = some (.returned none))
    (hi : outcomeAt r executable i = some (.returned (some e))) :
    ∃ res trace, Run r executable = .ok (res, trace) ∧
      res.IsSuccess = false ∧ res.lastStageIndex = (i : Int) ∧ res.error = some e ∧
      invocations trace = List.range (i + 1) ∧
      ∀ j, i < j → j ∉ invocations trace := by
  obtain ⟨s, hs, hrun⟩ := Run_fail r executable i _ e hpre hi rfl
  obtain ⟨hlt, _⟩ := List.getElem?_eq_some.mp hs
  have hinv := invocations_failTrace r.stages i hlt e r.isDebug s.logger
    ("Running test: " ++ s.name)
  refine ⟨_, _, hrun, rfl, rfl, rfl, hinv, ?_⟩
  intro j hj hmem
  rw [hinv, List.mem_range] at hmem
  omega

/-- C2: if every stage of the runner returns nil in time, `Run` starts the run
functions of the indices `0, ..., N-1` once each in this order and returns a
successful result with a nil error and `lastStageIndex = N - 1` (which is `-1`
for a runner without stages). -/
theorem Run_all_pass {Executable customLogger : Type}
    (r : StageRunner Executable customLogger) (executable : Executable)
    (hall : ∀ j, j < r.stages.length → outcomeAt r executable j = some (.returned none)) :
    ∃ res trace, Run r executable = .ok (res, trace) ∧
      res.IsSuccess = true ∧ res.error = none ∧
      res.lastStageIndex = (r.stages.length : Int) - 1 ∧
      invocations trace = List.range r.stages.length := by
  refine ⟨_, _, Run_pass r executable hall, rfl, rfl, rfl, ?_⟩
  rw [invocations_passTrace, List.range_eq_range']

theorem Run_stops_at_first_error_witness :
    (∀ j, j < 1 → outcomeAt failingRunner () j = some (.returned none)) ∧
    outcomeAt failingRunner () 1 = some (.returned (some ⟨"boom"⟩)) ∧
    ∃ res trace, Run failingRunner () = .ok (res, trace) ∧
      res.IsSuccess = false ∧ res.lastStageIndex = ((1 : Nat) : Int) ∧
      res.error = some ⟨"boom"⟩ ∧
      invocations trace = List.range (1 + 1) ∧
      ∀ j, 1 < j → j ∉ invocations trace :=
  ⟨by decide, by decide,
    Run_stops_at_first_error failingRunner () 1 ⟨"boom"⟩ (by decide) (by decide)⟩

theorem Run_all_pass_witness :
    (∀ j, j < passingRunner.stages.length →
      outcomeAt passingRunner () j = some (.returned none)) ∧
    ∃ res trace, Run passingRunner () = .ok (res, trace) ∧
      res.IsSuccess = true ∧ res.error = none ∧
      res.lastStageIndex = (passingRunner.stages.length : Int) - 1 ∧
      invocations trace = List.range passingRunner.stages.length :=
  ⟨by decide, Run_all_pass passingRunner () (by decide)⟩

/-- C3: for every index `k >= 0`, `Truncated(k)` returns a runner whose stage
list is the first `min(k, len(S)-1) + 1` stages of `S`, that is `S[0]` up to
`S[min(k, len(S)-1)]` in their order (no stage when `S` is empty). -/
theorem Truncated_stages {Executable customLogger : Type}
    (r : StageRunner Executable customLogger) (k : Int) (hk : 0 ≤ k) :
    ∃ r', Truncated r k = .ok r' ∧
      r'.stages = r.stages.take (Min.min k ((r.stages.length : Int) - 1) + 1).toNat ∧
      ∀ j : Nat, (j : Int) ≤ Min.min k ((r.stages.length : Int) - 1) →
        r'.stages[j]? = r.stages[j]? := by
  refine ⟨_, Truncated_eq r k (by omega), ?_, ?_⟩
  · rw [min_eq]; rfl
  · intro j hj
    have hlt : j < (min k (len r.stages - 1) + 1).toNat := by
      rw [min_eq]
      have : len r.stages = (r.stages.length : Int) := rfl
      omega
    simp only [List.getElem?_take, hlt, if_true]

theorem Truncated_stages_witness :
    (0 : Int) ≤ 1 ∧
    ∃ r', Truncated failingRunner 1 = .ok r' ∧
      r'.stages = failingRunner.stages.take
        (Min.min (1 : Int) ((failingRunner.stages.length : Int) - 1) + 1).toNat ∧
      ∀ j : Nat, (j : Int) ≤ Min.min (1 : Int) ((failingRunner.stages.length : Int) - 1) →
        r'.stages[j]? = failingRunner.stages[j]? :=
  ⟨by decide, Truncated_stages failingRunner 1 (by decide)⟩

/-- C6, the claim fails: on three stages `Truncated(5)` returns three stages,
not `min(5, 3) + 1 = 4`; and `Truncated(-3)` returns no stage list at all, where
the claim promises one of length `min(-3, 3) + 1`. -/
theorem Truncated_length_counterexample :
    (∃ r', Truncated failingRunner 5 = .ok r' ∧
      r'.stages.length = 3 ∧
      (r'.stages.length : Int) ≠ Min.min (5 : Int) (failingRunner.stages.length : Int) + 1) ∧
    Truncated failingRunner (-3) = .error Fault.makesliceLenOutOfRange :=
  ⟨⟨_, rfl, by decide, by decide⟩, rfl⟩

/-- C6, amended: for every `n >= -1` the stage list of `Truncated(n)` has length
`min(n, len(S) - 1) + 1`. -/
theorem Truncated_length {Executable customLogger : Type}
    (r : StageRunner Executable customLogger) (n : Int) (hn : -1 ≤ n) :
    ∃ r', Truncated r n = .ok r' ∧
      (r'.stages.length : Int) = Min.min n ((r.stages.length : Int) - 1) + 1 := by
  refine ⟨_, Truncated_eq r n hn, ?_⟩
  have hlen : len r.stages = (r.stages.length : Int) := rfl
  simp only [List.length_take, min_eq, hlen]
  omega

theorem Truncated_length_witness :
    (-1 : Int) ≤ 5 ∧
    ∃ r', Truncated failingRunner 5 = .ok r' ∧
      (r'.stages.length : Int)
        = Min.min (5 : Int) ((failingRunner.stages.length : Int) - 1) + 1 :=
  ⟨by decide, Truncated_length failingRunner 5 (by decide)⟩

/-- C7, the claim fails: `Truncated(-2)` asks `make` for a slice of negative
length and stops with "makeslice: len out of range", on three stages as well
as on a runner without stages. -/
theorem Truncated_negative_counterexample :
    Truncated failingRunner (-2) = .error Fault.makesliceLenOutOfRange ∧
    Truncated ({ stages := [], isDebug := false } : StageRunner Unit Nat) (-2)
      = .error Fault.makesliceLenOutOfRange :=
  ⟨rfl, rfl⟩

/-- C7, amended: for every `n >= -1` and every runner, also one without
stages, `Truncated(n)` returns a runner (no index is out of range and no
allocation has negative length), with the `isDebug` of the receiver and with the
first `min(n, len(stages) - 1) + 1` stages of the receiver: an `n` at or beyond
the last index is clamped to it, so that all stages are kept, and the result has
no stages when `n = -1` or when the receiver has none. -/
theorem Truncated_returns {Executable customLogger : Type}
    (r : StageRunner Executable customLogger) (n : Int) (hn : -1 ≤ n) :
    ∃ r', Truncated r n = .ok r' ∧ r'.isDebug = r.isDebug ∧
      r'.stages = r.stages.take (Min.min n ((r.stages.length : Int) - 1) + 1).toNat ∧
      ((r.stages.length : Int) - 1 ≤ n → r'.stages = r.stages) ∧
      (n = -1 ∨ r.stages = [] → r'.stages = []) := by
  have hlen : len r.stages = (r.stages.length : Int) := rfl
  refine ⟨_, Truncated_eq r n hn, rfl, ?_, ?_, ?_⟩
  · rw [min_eq]; rfl
  · intro hle
    apply List.take_of_length_le
    rw [min_eq, hlen]
    omega
  · intro h
    rcases h with h | h
    · have hz : (min n (len r.stages - 1) + 1).toNat = 0 := by
        rw [min_eq, hlen]
        omega
      simp only [hz, List.take_zero]
    · simp only [h, List.take_nil]

theorem Truncated_returns_witness :
    (-1 : Int) ≤ 0 ∧
    ∃ r', Truncated failingRunner 0 = .ok r' ∧ r'.isDebug = failingRunner.isDebug ∧
      r'.stages = failingRunner.stages.take
        (Min.min (0 : Int) ((failingRunner.stages.length : Int) - 1) + 1).toNat ∧
      ((failingRunner.stages.length : Int) - 1 ≤ 0 → r'.stages = failingRunner.stages) ∧
      ((0 : Int) = -1 ∨ failingRunner.stages = [] → r'.stages = []) :=
  ⟨by decide, Truncated_returns failingRunner 0 (by decide)⟩

/-- C8: for every permutation `perm` of `0 .. len(S)-1` that the random source
returns, `Randomized()` returns a runner whose stage list is a permutation of
`S` (same length, every stage with the same multiplicity), with the `isDebug`
of the receiver. -/
theorem Randomized_perm {Executable customLogger : Type}
    (r : StageRunner Executable customLogger) (perm : List Int)
    (hperm : IsPermOutput r.stages.length perm) :
    ∃ r', Randomized r perm = .ok r' ∧
      List.Perm r'.stages r.stages ∧ r'.stages.length = r.stages.length ∧
      r'.isDebug = r.isDebug := by
  have heq := shuffleStages_eq r.stages perm hperm
  have hp := shuffleStages_perm r.stages perm hperm
  refine ⟨{ isDebug := r.isDebug,
            stages := perm.map (fun j => r.stages.getD j.toNat Stage.zero) }, ?_, hp,
    hp.length_eq, rfl⟩
  unfold Randomized
  rw [heq]

theorem Randomized_perm_witness :
    IsPermOutput failingRunner.stages.length [2, 0, 1] ∧
    ∃ r', Randomized failingRunner [2, 0, 1] = .ok r' ∧
      List.Perm r'.stages failingRunner.stages ∧
      r'.stages.length = failingRunner.stages.length ∧
      r'.isDebug = failingRunner.isDebug :=
  ⟨by decide, Randomized_perm failingRunner [2, 0, 1] (by decide)⟩

/-- C4, the claim fails: when the second of three stages fails, by its own error
or by the timeout, the result has `lastStageIndex = 1` and a nil `logger`, while
the logger of that stage is not nil. -/
theorem Run_result_logger_counterexample :
    (∃ res trace, Run failingRunner () = .ok (res, trace) ∧ res.lastStageIndex = 1 ∧
      res.logger = none ∧ loggerAt failingRunner 1 = some 2) ∧
    (∃ res trace, Run hangingRunner () = .ok (res, trace) ∧ res.lastStageIndex = 1 ∧
      res.logger = none ∧ loggerAt hangingRunner 1 = some 2) :=
  ⟨⟨_, _, rfl, rfl, rfl, rfl⟩, ⟨_, _, rfl, rfl, rfl, rfl⟩⟩

/-- C4, amended: when `Run` stops because stage `i` failed (its run function
returned an error, or the timer fired first), the `logger` field of the result
is nil; the logger of stage `i` is where the failure is reported: every message
of the run at error level goes to it. -/
theorem Run_result_logger_nil {Executable customLogger : Type}
    (r : StageRunner Executable customLogger) (executable : Executable)
    (i : Nat) (o : StageOutcome) (e : GoError)
    (hpre : ∀ j, j < i → outcomeAt r executable j = some (.returned none))
    (hi : outcomeAt r executable i = some o) (he : selectErr o = some e) :
    ∃ res trace, Run r executable = .ok (res, trace) ∧
      res.lastStageIndex = (i : Int) ∧ res.IsSuccess = false ∧ res.logger = none ∧
      ∀ p ∈ errorLog trace, p.1 = loggerAt r i := by
  obtain ⟨s, hs, hrun⟩ := Run_fail r executable i o e hpre hi he
  refine ⟨_, _, hrun, rfl, rfl, rfl, ?_⟩
  intro p hp
  rw [errorLog_failTrace, loggerAt_eq r i s hs] at *
  simp only [List.mem_cons, List.mem_singleton, List.not_mem_nil, or_false] at hp
  rcases hp with rfl | rfl <;> rfl

theorem Run_result_logger_nil_witness :
    (∀ j, j < 1 → outcomeAt hangingRunner () j = some (.returned none)) ∧
    outcomeAt hangingRunner () 1 = some .noResult ∧
    selectErr .noResult = some ⟨"timed out, test exceeded 5 seconds"⟩ ∧
    ∃ res trace, Run hangingRunner () = .ok (res, trace) ∧
      res.lastStageIndex = ((1 : Nat) : Int) ∧ res.IsSuccess = false ∧ res.logger = none ∧
      ∀ p ∈ errorLog trace, p.1 = loggerAt hangingRunner 1 :=
  ⟨by decide, by decide, by decide,
    Run_result_logger_nil hangingRunner () 1 .noResult
      ⟨"timed out, test exceeded 5 seconds"⟩ (by decide) (by decide) (by decide)⟩

/-- C5, the claim fails: when the second of three stages delivers nothing before
the timer fires, the error of the result has the message "timed out, test
exceeded 5 seconds", which is "stage timed out, exceeded " followed by a
duration for no duration at all. -/
theorem Run_timeout_message_counterexample :
    (∃ res trace, Run hangingRunner () = .ok (res, trace) ∧
      res.error = some ⟨"timed out, test exceeded 5 seconds"⟩) ∧
    ¬ ∃ res trace duration, Run hangingRunner () = .ok (res, trace) ∧
      res.error = some ⟨"stage timed out, exceeded " ++ duration⟩ := by
  refine ⟨⟨_, _, rfl, rfl⟩, ?_⟩
  rintro ⟨res, trace, duration, hrun, herr⟩
  have hrun2 : Run hangingRunner ()
      = .ok ({ lastStageIndex := 1,
               error := some ⟨"timed out, test exceeded 5 seconds"⟩, logger := none },
        reportTestError ⟨"timed out, test exceeded 5 seconds"⟩ true (some 2)
          (passTrace 0 (hangingRunner.stages.take 1)
            ++ [Event.log (some 2) Level.info ("Running test: " ++ "two"),
                Event.invoke 1])) := rfl
  rw [hrun2] at hrun
  injection hrun with hrun
  injection hrun with hres _
  rw [← hres] at herr
  simp only [Option.some.injEq, GoError.mk.injEq] at herr
  have hhead := congrArg (fun t : String => t.data.head?) herr
  simp at hhead

/-- C5, amended: if the stages before index `i` all return nil in time and stage
`i` delivers nothing before the 5 second timer fires, `Run` returns a result
that is not a success, has `lastStageIndex = i` and carries the error made up by
the runner, whose message is "timed out, test exceeded 5 seconds"; the run
functions started are those of the indices `0, ..., i`, so no later stage is
attempted. -/
theorem Run_timeout {Executable customLogger : Type}
    (r : StageRunner Executable customLogger) (executable : Executable) (i : Nat)
    (hpre : ∀ j, j < i → outcomeAt r executable j = some (.returned none))
    (hi : outcomeAt r executable i = some .noResult) :
    ∃ res trace, Run r executable = .ok (res, trace) ∧
      res.IsSuccess = false ∧ res.lastStageIndex = (i : Int) ∧
      res.error = some ⟨"timed out, test exceeded 5 seconds"⟩ ∧
      invocations trace = List.range (i + 1) ∧
      ∀ j, i < j → j ∉ invocations trace := by
  obtain ⟨s, hs, hrun⟩ := Run_fail r executable i _ _ hpre hi rfl
  obtain ⟨hlt, _⟩ := List.getElem?_eq_some.mp hs
  have hinv := invocations_failTrace r.stages i hlt
    (Errorf "timed out, test exceeded 5 seconds") r.isDebug s.logger
    ("Running test: " ++ s.name)
  refine ⟨_, _, hrun, rfl, rfl, rfl, hinv, ?_⟩
  intro j hj hmem
  rw [hinv, List.mem_range] at hmem
  omega

theorem Run_timeout_witness :
    (∀ j, j < 1 → outcomeAt hangingRunner () j = some (.returned none)) ∧
    outcomeAt hangingRunner () 1 = some .noResult ∧
    ∃ res trace, Run hangingRunner () = .ok (res, trace) ∧
      res.IsSuccess = false ∧ res.lastStageIndex = ((1 : Nat) : Int) ∧
      res.error = some ⟨"timed out, test exceeded 5 seconds"⟩ ∧
      invocations trace = List.range (1 + 1) ∧
      ∀ j, 1 < j → j ∉ invocations trace :=
  ⟨by decide, by decide, Run_timeout hangingRunner () 1 (by decide) (by decide)⟩

/-- C9: when stage `i` fails with error `e` (returned by its run function, or made
up on timeout), what `Run` does from the start of that run function on is
exactly: log the message of `e` at error level on the logger of stage `i`, then
log one "Test failed" message at error level on the same logger, and return.
These two are the only messages of the run at error level; the second one
carries the hint about debug mode exactly when `isDebug` is false; nothing, so
no "Test passed.", is logged after them. -/
theorem Run_failure_report {Executable customLogger : Type}
    (r : StageRunner Executable customLogger) (executable : Executable)
    (i : Nat) (o : StageOutcome) (e : GoError)
    (hpre : ∀ j, j < i → outcomeAt r executable j = some (.returned none))
    (hi : outcomeAt r executable i = some o) (he : selectErr o = some e) :
    ∃ res trace before failed, Run r executable = .ok (res, trace) ∧
      trace = before ++ [Event.invoke i,
        Event.log (loggerAt r i) Level.error e.msg,
        Event.log (loggerAt r i) Level.error failed] ∧
      i ∉ invocations before ∧
      errorLog trace = [(loggerAt r i, e.msg), (loggerAt r i, failed)] ∧
      failed = (if r.isDebug then "Test failed" else
        "Test failed (try setting \x27debug: true\x27 in your codecrafters.yml to see more details)") := by
  obtain ⟨s, hs, hrun⟩ := Run_fail r executable i o e hpre hi he
  obtain ⟨hlt, _⟩ := List.getElem?_eq_some.mp hs
  have hlen : (r.stages.take i).length = i := by
    rw [List.length_take]; omega
  have hlg := loggerAt_eq r i s hs
  refine ⟨_, _, passTrace 0 (r.stages.take i)
      ++ [Event.log s.logger Level.info ("Running test: " ++ s.name)],
    (if r.isDebug then "Test failed" else testFailedHint), hrun, ?_, ?_, ?_, ?_⟩
  · rw [reportTestError_eq, hlg]
    simp
  · rw [invocations_append, invocations_passTrace, hlen]
    simp [invocations]
  · rw [errorLog_failTrace, hlg]
  · rfl

theorem Run_failure_report_witness :
    (∀ j, j < 1 → outcomeAt failingRunner () j = some (.returned none)) ∧
    outcomeAt failingRunner () 1 = some (.returned (some ⟨"boom"⟩)) ∧
    selectErr (.returned (some ⟨"boom"⟩)) = some ⟨"boom"⟩ ∧
    ∃ res trace before failed, Run failingRunner () = .ok (res, trace) ∧
      trace = before ++ [Event.invoke 1,
        Event.log (loggerAt failingRunner 1) Level.error (GoError.mk "boom").msg,
        Event.log (loggerAt failingRunner 1) Level.error failed] ∧
      1 ∉ invocations before ∧
      errorLog trace = [(loggerAt failingRunner 1, (GoError.mk "boom").msg),
        (loggerAt failingRunner 1, failed)] ∧
      failed = (if failingRunner.isDebug then "Test failed" else
        "Test failed (try setting \x27debug: true\x27 in your codecrafters.yml to see more details)") :=
  ⟨by decide, by decide, by decide,
    Run_failure_report failingRunner () 1 (.returned (some ⟨"boom"⟩)) ⟨"boom"⟩
      (by decide) (by decide) (by decide)⟩

/-- C10, the claim fails: with an empty client identifier the line logged for the
command `PING` without arguments is "$ redis-cli PING", not "$ PING", and for
`SET foo bar` from client "c1" it is "c1: $ redis-cli SET foo bar", not
"c1: $ SET foo bar". -/
theorem OnSendCommand_counterexample :
    ((NewInstrumentedRespClient.callbacks (fun b : String => b) (fun v : String => v)
        "").OnSendCommand "PING" []).2 = "$ redis-cli PING" ∧
    ((NewInstrumentedRespClient.callbacks (fun b : String => b) (fun v : String => v)
        "").OnSendCommand "PING" []).2 ≠ "" ++ "$ " ++ "PING" ++ shellArgs [] ∧
    ((NewInstrumentedRespClient.callbacks (fun b : String => b) (fun v : String => v)
        "c1").OnSendCommand "SET" ["foo", "bar"]).2 = "c1: $ redis-cli SET foo bar" ∧
    ((NewInstrumentedRespClient.callbacks (fun b : String => b) (fun v : String => v)
        "c1").OnSendCommand "SET" ["foo", "bar"]).2
      ≠ "c1" ++ ": " ++ "$ " ++ "SET" ++ shellArgs ["foo", "bar"] := by
  decide

/-- C10, amended: the line logged on `OnSendCommand` is the prefix, then
"$ redis-cli ", then the command, then every argument preceded by one space
(so nothing after the command when there are no arguments), at info level; the
prefix is empty for an empty client identifier and the identifier followed by
": " otherwise; the bytes-sent, bytes-received and value-read lines start with
the same prefix, followed by "Sent bytes: ", "Received bytes: " and
"Received RESP value: " and the rendered payload, at debug level. -/
theorem callbacks_lines {Bytes Value : Type}
    (quote : Bytes → String) (FormattedString : Value → String)
    (clientIdentifier command : String) (args : List String)
    (bytes : Bytes) (value : Value) :
    ((NewInstrumentedRespClient.callbacks quote FormattedString clientIdentifier).OnSendCommand
        command args
      = (Level.info, (if clientIdentifier = "" then "" else clientIdentifier ++ ": ")
          ++ "$ redis-cli " ++ command ++ shellArgs args)) ∧
    ((NewInstrumentedRespClient.callbacks quote FormattedString clientIdentifier).OnBytesSent
        bytes
      = (Level.debug, (if clientIdentifier = "" then "" else clientIdentifier ++ ": ")
          ++ "Sent bytes: " ++ quote bytes)) ∧
    ((NewInstrumentedRespClient.callbacks quote FormattedString clientIdentifier).OnBytesReceived
        bytes
      = (Level.debug, (if clientIdentifier = "" then "" else clientIdentifier ++ ": ")
          ++ "Received bytes: " ++ quote bytes)) ∧
    ((NewInstrumentedRespClient.callbacks quote FormattedString clientIdentifier).OnValueRead
        value
      = (Level.debug, (if clientIdentifier = "" then "" else clientIdentifier ++ ": ")
          ++ "Received RESP value: " ++ FormattedString value)) := by
  have hp : logPrefix clientIdentifier
      = (if clientIdentifier = "" then "" else clientIdentifier ++ ": ") := by
    unfold logPrefix
    by_cases h : clientIdentifier = "" <;> simp [h]
  refine ⟨?_, ?_, ?_, ?_⟩
  · cases args with
    | nil =>
      simp only [NewInstrumentedRespClient.callbacks, hp, List.length_nil, gt_iff_lt,
        Nat.lt_irrefl, if_false, shellArgs, String.append_empty]
    | cons a rest =>
      have hj := shellArgs_Join a rest
      simp only [NewInstrumentedRespClient.callbacks, hp, List.length_cons, gt_iff_lt,
        Nat.zero_lt_succ, if_true, String.append_assoc, hj]
  · simp only [NewInstrumentedRespClient.callbacks, hp]
  · simp only [NewInstrumentedRespClient.callbacks, hp]
  · simp only [NewInstrumentedRespClient.callbacks, hp]

end RedisTester
